import Mathlib

/-!
Shallow embedding of the session-metrics core of the `claude_statusbar`
repository, together with theorems checking the natural-language
specification against it.

Embedded source:
* `src/src/sessionCalculator.ts` — dedup, sort, staleness filter,
  5-hour window partitioning, active-window selection, aggregation,
  burn rates (`calculateSessionMetrics`, `groupIntoFiveHourSets`,
  `roundToNearestHour`, `calculateBurnRate`);
* `pricing.ts` (pattern-matching revision, found at
  `src/src/sessionPopup.ts` lines 1252-1354) — `MODEL_PRICING`,
  `getModelTier`, `calculateMessageCost`;
* `src/unnamed/part_001` (`sessionParser.ts`) — `calculateLimitTokens`
  and the record-discard logic of `parseSessionFile`.

Conventions: instants are epoch milliseconds as `Int` (the TS code
compares `Date` values through `getTime()`); monetary values are exact
rationals (`ℚ`), the idealized arithmetic the JS float code computes;
JS `Array.prototype.sort` with the timestamp comparator is a stable
sort, embedded as a stable insertion sort; `Record<string, number>`
with `(r[k] || 0) + v` updates is an insertion-ordered association
list; `Set<string>` is a list of strings with membership test.
-/

namespace ClaudeStatusbar

/-- Token usage of one message (`MessageUsage` in `types.ts`); the four
counters are non-negative integers, missing ones already defaulted to 0
by the parser. -/
structure MessageUsage where
  input_tokens : Nat
  cache_creation_input_tokens : Nat
  cache_read_input_tokens : Nat
  output_tokens : Nat
deriving DecidableEq, Repr

/-- One parsed message (`ClaudeMessage` in `types.ts`); `timestamp` is
epoch milliseconds (the value `new Date(m.timestamp).getTime()` yields
on the stored ISO string). -/
structure ClaudeMessage where
  id : String
  requestId : String
  timestamp : Int
  role : String
  model : Option String
  projectName : Option String
  usage : Option MessageUsage
deriving DecidableEq, Repr

/-- Plan limits (`PlanConfig` in `types.ts`). -/
structure PlanConfig where
  plan : String
  tokenLimit : ℚ
  costLimit : ℚ
  messageLimit : Nat
deriving DecidableEq, Repr

/-- Model tier classification (`ModelTier` in `types.ts`). -/
inductive ModelTier where
  | opus
  | sonnet
  | haiku
deriving DecidableEq, Repr

/-- Per-tier pricing rates, USD per million tokens (`ModelPricing`). -/
structure ModelPricing where
  input : ℚ
  output : ℚ
  cacheCreation : ℚ
  cacheRead : ℚ
deriving DecidableEq, Repr

/-- Pricing table from `pricing.ts` (`MODEL_PRICING`). -/
def MODEL_PRICING : ModelTier → ModelPricing
  | .opus => ⟨15.0, 75.0, 18.75, 1.5⟩
  | .sonnet => ⟨3.0, 15.0, 3.75, 0.3⟩
  | .haiku => ⟨0.25, 1.25, 0.3, 0.03⟩

/-- Check that `needle` is a leading segment of `hay` (character list
version of the test JS `String.prototype.includes` performs at each
offset). -/
def prefEq : List Char → List Char → Bool
  | [], _ => true
  | _ :: _, [] => false
  | a :: as, b :: bs => a == b && prefEq as bs

/-- Substring search over character lists. -/
def hasSub (needle : List Char) : List Char → Bool
  | [] => needle.isEmpty
  | c :: rest => prefEq needle (c :: rest) || hasSub needle rest

/-- JS `s.includes(sub)`. -/
def jsIncludes (s sub : String) : Bool :=
  hasSub sub.data s.data

/-- Tier resolution from `pricing.ts` (pattern-matching revision):
lowercase the model name, then test for `"opus"`, `"haiku"`,
`"sonnet"` in that order; default sonnet, also when the name is
absent. -/
def getModelTier : Option String → ModelTier
  | none => .sonnet
  | some modelName =>
    let nameLower := modelName.toLower
    if jsIncludes nameLower "opus" then .opus
    else if jsIncludes nameLower "haiku" then .haiku
    else if jsIncludes nameLower "sonnet" then .sonnet
    else .sonnet

/-- JS `Math.round`: nearest integer, halves toward positive
infinity. -/
def jsRound (q : ℚ) : ℤ := ⌊q + 1 / 2⌋

/-- Cost of one message (`calculateMessageCost` in `pricing.ts`):
all four token kinds are billed at the tier's rates, and the sum is
rounded to 6 decimal places via `Math.round(c * 1e6) / 1e6`. -/
def calculateMessageCost (usage : MessageUsage) (modelName : Option String) : ℚ :=
  let tier := getModelTier modelName
  let pricing := MODEL_PRICING tier
  let inputCost := ((usage.input_tokens : ℚ) / 1000000) * pricing.input
  let outputCost := ((usage.output_tokens : ℚ) / 1000000) * pricing.output
  let cacheCreationCost := ((usage.cache_creation_input_tokens : ℚ) / 1000000) * pricing.cacheCreation
  let cacheReadCost := ((usage.cache_read_input_tokens : ℚ) / 1000000) * pricing.cacheRead
  (jsRound ((inputCost + outputCost + cacheCreationCost + cacheReadCost) * 1000000) : ℚ) / 1000000

/-- Tokens that count toward session limits (`calculateLimitTokens` in
`sessionParser.ts`): input and output only, cache counters excluded. -/
def calculateLimitTokens (usage : MessageUsage) : Nat :=
  usage.input_tokens + usage.output_tokens

/-- `SESSION_DURATION_MS`: 5 hours in milliseconds. -/
def SESSION_DURATION_MS : Int := 5 * 60 * 60 * 1000

/-- `BURN_RATE_WINDOW_MS`: 10 minutes in milliseconds. -/
def BURN_RATE_WINDOW_MS : Int := 10 * 60 * 1000

/-- `roundToNearestHour`: zero out minutes, seconds and milliseconds,
i.e. floor the instant to its hour boundary. -/
def roundToNearestHour (t : Int) : Int :=
  t - t.emod (60 * 60 * 1000)

/-- One 5-hour session window (`SessionSet` in `sessionCalculator.ts`). -/
structure SessionSet where
  startTime : Int
  endTime : Int
  lastMessageTime : Int
  messages : List ClaudeMessage
deriving DecidableEq, Repr

/-- The window opened on message `m`: start floored to `m`'s hour, end
5 hours later, seeded with `m`. -/
def freshSet (m : ClaudeMessage) : SessionSet :=
  let roundedStart := roundToNearestHour m.timestamp
  { startTime := roundedStart
    endTime := roundedStart + SESSION_DURATION_MS
    lastMessageTime := m.timestamp
    messages := [m] }

/-- Loop body of `groupIntoFiveHourSets`: state is the emitted windows
plus the currently open window (if any). -/
def groupStep : List SessionSet × Option SessionSet → ClaudeMessage → List SessionSet × Option SessionSet
  | (sets, none), m => (sets, some (freshSet m))
  | (sets, some cur), m =>
    if cur.endTime ≤ m.timestamp then
      (sets ++ [cur], some (freshSet m))
    else if 0 < cur.messages.length ∧ SESSION_DURATION_MS ≤ m.timestamp - cur.lastMessageTime then
      (sets ++ [cur], some (freshSet m))
    else
      (sets, some { cur with
        messages := cur.messages ++ [m]
        lastMessageTime := m.timestamp })

/-- `groupIntoFiveHourSets`: partition a chronological message list
into 5-hour windows; the final open window is emitted after the loop. -/
def groupIntoFiveHourSets (messages : List ClaudeMessage) : List SessionSet :=
  let result := messages.foldl groupStep ([], none)
  match result.2 with
  | none => result.1
  | some cur => result.1 ++ [cur]

/-- Dedup key: `id + ":" + requestId` (`hash` in Step 1). -/
def dedupKey (m : ClaudeMessage) : String :=
  m.id ++ ":" ++ m.requestId

/-- Step 1 loop: keep the first occurrence of each dedup key, `seen`
being the set of keys already kept. -/
def dedupFrom (seen : List String) : List ClaudeMessage → List ClaudeMessage
  | [] => []
  | m :: rest =>
    if dedupKey m ∈ seen then dedupFrom seen rest
    else m :: dedupFrom (dedupKey m :: seen) rest

/-- Step 1 (`uniqueMessages`): deduplicate, keeping first occurrences. -/
def uniqueMessages (l : List ClaudeMessage) : List ClaudeMessage :=
  dedupFrom [] l

/-- Insert a message into a timestamp-sorted list, after every element
whose timestamp is `≤` its own (so earlier arrivals with equal
timestamps stay first — the stable order `Array.prototype.sort`
guarantees with the `ta - tb` comparator). -/
def insertByTime (m : ClaudeMessage) : List ClaudeMessage → List ClaudeMessage
  | [] => [m]
  | x :: xs => if x.timestamp ≤ m.timestamp then x :: insertByTime m xs else m :: x :: xs

/-- Step 2 (`sortedMessages`): stable sort by timestamp ascending. -/
def sortByTimestamp (l : List ClaudeMessage) : List ClaudeMessage :=
  l.foldl (fun acc m => insertByTime m acc) []

/-- `HOURS_BACK`: staleness horizon in hours. -/
def HOURS_BACK : Int := 192

/-- Step 3 (`recentMessages`): drop events older than
`now − 192 hours`. -/
def recentOnly (now : Int) (l : List ClaudeMessage) : List ClaudeMessage :=
  l.filter (fun m => decide (now - HOURS_BACK * 60 * 60 * 1000 ≤ m.timestamp))

/-- Step 5 filter (`activeSets`): windows with
`startTime ≤ now ≤ endTime`. -/
def activeSets (now : Int) (sets : List SessionSet) : List SessionSet :=
  sets.filter (fun s => decide (s.startTime ≤ now ∧ now ≤ s.endTime))

/-- Three-bucket token breakdown by model tier. -/
structure ModelBreakdown where
  opus : Nat
  sonnet : Nat
  haiku : Nat
deriving DecidableEq, Repr

/-- Add tokens to the bucket of one tier. -/
def bumpTier (mb : ModelBreakdown) (tier : ModelTier) (tokens : Nat) : ModelBreakdown :=
  match tier with
  | .opus => { mb with opus := mb.opus + tokens }
  | .sonnet => { mb with sonnet := mb.sonnet + tokens }
  | .haiku => { mb with haiku := mb.haiku + tokens }

/-- JS `record[k] = (record[k] || 0) + v` on an insertion-ordered
object: update the existing entry in place, else append a new one. -/
def bumpProject (pb : List (String × Nat)) (p : String) (tokens : Nat) : List (String × Nat) :=
  if pb.any (fun kv => kv.1 == p) then
    pb.map (fun kv => if kv.1 == p then (kv.1, kv.2 + tokens) else kv)
  else
    pb ++ [(p, tokens)]

/-- Accumulator of the Step 6 aggregation loop. -/
structure AggState where
  seenIds : List String
  messageCount : Nat
  totalTokens : Nat
  inputTokens : Nat
  cacheCreationTokens : Nat
  cacheReadTokens : Nat
  outputTokens : Nat
  totalCost : ℚ
  modelBreakdown : ModelBreakdown
  projectBreakdown : List (String × Nat)
deriving DecidableEq, Repr

/-- Fresh accumulator: all totals zero, nothing seen. -/
def initAgg : AggState :=
  { seenIds := []
    messageCount := 0
    totalTokens := 0
    inputTokens := 0
    cacheCreationTokens := 0
    cacheReadTokens := 0
    outputTokens := 0
    totalCost := 0
    modelBreakdown := ⟨0, 0, 0⟩
    projectBreakdown := [] }

/-- Step 6 loop body: messages without usage are ignored; a message
whose dedup key was already seen in this window is skipped; otherwise
every total is bumped, the quota-relevant tokens go to the message's
tier bucket and (when labelled) to its project bucket. -/
def aggStep (st : AggState) (m : ClaudeMessage) : AggState :=
  match m.usage with
  | none => st
  | some usage =>
    if dedupKey m ∈ st.seenIds then st
    else
      let msgTokens := calculateLimitTokens usage
      { seenIds := dedupKey m :: st.seenIds
        messageCount := st.messageCount + 1
        totalTokens := st.totalTokens + msgTokens
        inputTokens := st.inputTokens + usage.input_tokens
        cacheCreationTokens := st.cacheCreationTokens + usage.cache_creation_input_tokens
        cacheReadTokens := st.cacheReadTokens + usage.cache_read_input_tokens
        outputTokens := st.outputTokens + usage.output_tokens
        totalCost := st.totalCost + calculateMessageCost usage m.model
        modelBreakdown := bumpTier st.modelBreakdown (getModelTier m.model) msgTokens
        projectBreakdown :=
          match m.projectName with
          | some p => bumpProject st.projectBreakdown p msgTokens
          | none => st.projectBreakdown }

/-- Per-message value for the token burn rate. -/
def tokenValue (m : ClaudeMessage) : ℚ :=
  match m.usage with
  | some u => (calculateLimitTokens u : ℚ)
  | none => 0

/-- Per-message value for the cost burn rate. -/
def costValue (m : ClaudeMessage) : ℚ :=
  match m.usage with
  | some u => calculateMessageCost u m.model
  | none => 0

/-- Per-message value for the message burn rate. -/
def messageValue (m : ClaudeMessage) : ℚ :=
  match m.usage with
  | some _ => 1
  | none => 0

/-- `calculateBurnRate`: restrict to the trailing 10-minute sub-window
ending at `now`; an empty sub-window gives rate 0, otherwise the summed
values are divided by the minutes elapsed since the sub-window's first
message, with a guard returning 0 when that span is not positive. -/
def calculateBurnRate (messages : List ClaudeMessage) (now : Int)
    (valueExtractor : ClaudeMessage → ℚ) : ℚ :=
  let windowStart := now - BURN_RATE_WINDOW_MS
  let recentMessages := messages.filter (fun m => decide (windowStart ≤ m.timestamp))
  match recentMessages with
  | [] => 0
  | first :: rest =>
    let totalValue := (first :: rest).foldl (fun s m => s + valueExtractor m) 0
    let elapsedMinutes : ℚ := ((now - first.timestamp : Int) : ℚ) / (60 * 1000)
    if 0 < elapsedMinutes then totalValue / elapsedMinutes else 0

/-- The returned snapshot (`SessionMetrics` in `types.ts`, with the
model and project breakdowns of the calculator's revision). -/
structure SessionMetrics where
  totalTokens : Nat
  inputTokens : Nat
  cacheCreationTokens : Nat
  cacheReadTokens : Nat
  outputTokens : Nat
  totalCost : ℚ
  costLimit : ℚ
  messageCount : Nat
  messageLimit : Nat
  sessionId : String
  startTime : Int
  lastMessageTime : Int
  sessionEndTime : Int
  timeRemaining : Int
  isActive : Bool
  tokenBurnRate : ℚ
  costBurnRate : ℚ
  messageBurnRate : ℚ
  modelBreakdown : ModelBreakdown
  projectBreakdown : List (String × Nat)
deriving DecidableEq, Repr

/-- Metrics built from the selected active window (the tail of
`calculateSessionMetrics` after Step 5). -/
def mkMetrics (activeSet : SessionSet) (sessionId : String)
    (planConfig : PlanConfig) (now : Int) : SessionMetrics :=
  let timeRemaining := max 0 (activeSet.endTime - now)
  let agg := activeSet.messages.foldl aggStep initAgg
  { totalTokens := agg.totalTokens
    inputTokens := agg.inputTokens
    cacheCreationTokens := agg.cacheCreationTokens
    cacheReadTokens := agg.cacheReadTokens
    outputTokens := agg.outputTokens
    totalCost := agg.totalCost
    costLimit := planConfig.costLimit
    messageCount := agg.messageCount
    messageLimit := planConfig.messageLimit
    sessionId := sessionId
    startTime := activeSet.startTime
    lastMessageTime := activeSet.lastMessageTime
    sessionEndTime := activeSet.endTime
    timeRemaining := timeRemaining
    isActive := decide (0 < timeRemaining)
    tokenBurnRate := calculateBurnRate activeSet.messages now tokenValue
    costBurnRate := calculateBurnRate activeSet.messages now costValue
    messageBurnRate := calculateBurnRate activeSet.messages now messageValue
    modelBreakdown := agg.modelBreakdown
    projectBreakdown := agg.projectBreakdown }

/-- Steps 1-5 composed: the window selected for `now`, if any. -/
def activeWindow (messages : List ClaudeMessage) (now : Int) : Option SessionSet :=
  (activeSets now (groupIntoFiveHourSets (recentOnly now (sortByTimestamp (uniqueMessages messages))))).getLast?

/-- `calculateSessionMetrics`: the full engine, with the source's early
returns on an empty input, an empty post-staleness list and an empty
window list; `now` (read from the clock in the source) is an explicit
parameter. -/
def calculateSessionMetrics (messages : List ClaudeMessage) (sessionId : String)
    (planConfig : PlanConfig) (now : Int) : Option SessionMetrics :=
  if messages.length = 0 then none
  else
    let uniq := uniqueMessages messages
    let sorted := sortByTimestamp uniq
    let recent := recentOnly now sorted
    if recent.length = 0 then none
    else
      let sets := groupIntoFiveHourSets recent
      if sets.length = 0 then none
      else
        match (activeSets now sets).getLast? with
        | none => none
        | some activeSet => some (mkMetrics activeSet sessionId planConfig now)

/-! ### Event Normalizer (`parseSessionFile` in `src/unnamed/part_001`)

The file/JSONL plumbing is I/O; the embedded part is the per-record
decision logic: which raw records are discarded and how a kept record
is turned into a `ClaudeMessage`. Raw JSON fields are `Option`s;
JS string truthiness (empty string is falsy) is modelled explicitly. -/

/-- Raw `usage` object of one JSONL record. -/
structure RawUsage where
  input_tokens : Option Nat
  cache_creation_input_tokens : Option Nat
  cache_read_input_tokens : Option Nat
  output_tokens : Option Nat
  model : Option String
deriving DecidableEq, Repr

/-- Raw nested `message` object. -/
structure RawMessage where
  id : Option String
  role : Option String
  model : Option String
  usage : Option RawUsage
deriving DecidableEq, Repr

/-- One raw decoded JSONL record, with the alternate model-name
locations the parser probes (`request.model` flattened to
`requestModel`). -/
structure RawRecord where
  type : Option String
  message : Option RawMessage
  uuid : Option String
  request_id : Option String
  requestId : Option String
  timestamp : Option Int
  model : Option String
  Model : Option String
  requestModel : Option String
deriving DecidableEq, Repr

/-- JS `a || b` on optional strings: an absent or empty string falls
through to `b`. -/
def jsOrStr (a b : Option String) : Option String :=
  match a with
  | some s => if s = "" then b else some s
  | none => b

/-- `candidates.find(m => m && typeof m === 'string')`: the first
present, non-empty string candidate. -/
def findModel : List (Option String) → Option String
  | [] => none
  | none :: rest => findModel rest
  | some s :: rest => if s = "" then findModel rest else some s

/-- Per-record normalization logic of `parseSessionFile`: summary
records and records without a nested message or usage object are
discarded, as are records with zero billed (input + output) tokens;
otherwise the fields are defaulted and assembled into a
`ClaudeMessage`. `nowTs` is the clock value missing timestamps default
to. -/
def parseRecord (parsed : RawRecord) (projectName : Option String) (nowTs : Int) :
    Option ClaudeMessage :=
  if parsed.type = some "summary" then none
  else
    match parsed.message with
    | none => none
    | some msg =>
      match msg.usage with
      | none => none
      | some usage =>
        let hasTokens :=
          (match usage.input_tokens with
           | some n => decide (0 < n)
           | none => false) ||
          (match usage.output_tokens with
           | some n => decide (0 < n)
           | none => false)
        if hasTokens then
          some
            { id := (jsOrStr msg.id parsed.uuid).getD ""
              requestId := (jsOrStr parsed.request_id parsed.requestId).getD "unknown"
              timestamp := parsed.timestamp.getD nowTs
              role := (jsOrStr msg.role (some "user")).getD "user"
              model := findModel [msg.model, parsed.model, parsed.Model, usage.model,
                parsed.requestModel]
              projectName := projectName
              usage :=
                some { input_tokens := usage.input_tokens.getD 0
                       cache_creation_input_tokens := usage.cache_creation_input_tokens.getD 0
                       cache_read_input_tokens := usage.cache_read_input_tokens.getD 0
                       output_tokens := usage.output_tokens.getD 0 } }
        else none

/-! ### Statement-side helpers -/

/-- Quota-relevant tokens of a message list: `input + output` of each
message that carries usage. -/
def sumLimitTokens (l : List ClaudeMessage) : Nat :=
  (l.map (fun m => m.usage.elim 0 calculateLimitTokens)).sum

/-- The subsequence of usage-bearing messages whose dedup key is fresh
(relative to `seen`), keeping first occurrences — the messages the
Step 6 aggregation loop actually counts. -/
def dedupUsageFrom (seen : List String) : List ClaudeMessage → List ClaudeMessage
  | [] => []
  | m :: rest =>
    match m.usage with
    | none => dedupUsageFrom seen rest
    | some _ =>
      if dedupKey m ∈ seen then dedupUsageFrom seen rest
      else m :: dedupUsageFrom (dedupKey m :: seen) rest

/-- Zero out a message's cache counters, leaving everything else
(identity, timestamp, billed tokens, model, project) unchanged. Two
message lists with the same `stripCache` image differ at most in cache
counters. -/
def stripCache (m : ClaudeMessage) : ClaudeMessage :=
  { m with usage := m.usage.map fun u =>
      { u with cache_creation_input_tokens := 0, cache_read_input_tokens := 0 } }

/-- Apply a message transformation inside a window. -/
def mapSet (f : ClaudeMessage → ClaudeMessage) (s : SessionSet) : SessionSet :=
  { s with messages := s.messages.map f }

/-! ### Concrete fixtures (Scenario A of the spec and variants) -/

/-- Scenario A event: 2025-01-01T10:17:00Z, 100 input / 50 output
tokens, no cache activity, model `claude-3-5-sonnet`. -/
def msgA : ClaudeMessage :=
  { id := "msg1", requestId := "req1", timestamp := 1735726620000, role := "assistant",
    model := some "claude-3-5-sonnet", projectName := some "projA",
    usage := some ⟨100, 0, 0, 50⟩ }

/-- Scenario A event with large cache counters injected; agrees with
`msgA` after `stripCache`. -/
def msgACache : ClaudeMessage :=
  { msgA with usage := some ⟨100, 999999999, 777777, 50⟩ }

/-- A quota configuration (pro tier). -/
def cfgA : PlanConfig :=
  { plan := "pro", tokenLimit := 19000, costLimit := 18, messageLimit := 250 }

/-- 2025-01-01T10:20:00Z, the `now` of Scenario A. -/
def nowA : Int := 1735726800000

/-- 2025-01-01T15:00:00Z, exactly the end of Scenario A's window. -/
def endNowA : Int := 1735743600000

/-- The metrics Scenario A produces. -/
def metricsA : SessionMetrics :=
  (calculateSessionMetrics [msgA] "s1" cfgA nowA).get (by with_unfolding_all rfl)

/-- The window Scenario A selects. -/
def windowA : SessionSet :=
  (activeWindow [msgA] nowA).get (by with_unfolding_all rfl)

/-- The metrics produced when `now` is exactly the window's end. -/
def metricsEnd : SessionMetrics :=
  (calculateSessionMetrics [msgA] "s1" cfgA endNowA).get (by with_unfolding_all rfl)

/-- The window selected when `now` is exactly the window's end. -/
def windowEnd : SessionSet :=
  (activeWindow [msgA] endNowA).get (by with_unfolding_all rfl)

/-- Scenario D raw record: 1000 cache-creation tokens but zero billed
input/output tokens. -/
def recordD : RawRecord :=
  { type := none
    message := some
      { id := some "d1", role := some "assistant", model := some "claude-3-5-sonnet",
        usage := some
          { input_tokens := some 0, cache_creation_input_tokens := some 1000,
            cache_read_input_tokens := some 0, output_tokens := some 0, model := none } }
    uuid := none, request_id := some "rd", requestId := none,
    timestamp := some 1735726620000, model := none, Model := none, requestModel := none }

/-- An event at exactly the end of Scenario A's window
(2025-01-01T15:00:00Z). -/
def msgB : ClaudeMessage :=
  { msgA with id := "msg2", timestamp := 1735743600000 }

/-- An event at 2025-01-01T10:30:00Z, inside Scenario A's window and
13 minutes after `msgA`. -/
def msgC : ClaudeMessage :=
  { msgA with id := "msg3", timestamp := 1735727400000 }

/-- The window opened on `msgA` (start 10:00Z, end 15:00Z). -/
def curA : SessionSet := freshSet msgA

/-- A window whose last event is far in its past: start 10:00Z, end
15:00Z, last event 05:00Z. -/
def curGap : SessionSet :=
  { startTime := 1735725600000, endTime := 1735743600000,
    lastMessageTime := 1735707600000, messages := [msgA] }

/-- An event at 2025-01-01T10:01:00Z — before `curGap`'s end but more
than 5 hours after its last event. -/
def msgGapEvt : ClaudeMessage :=
  { msgA with id := "msg4", timestamp := 1735725660000 }

/-- A very old event (epoch 0), stale relative to Scenario A's `now`. -/
def msgOld : ClaudeMessage :=
  { msgA with id := "msg5", timestamp := 0 }

/-- A raw record with no nested message object. -/
def recordNoMsg : RawRecord :=
  { type := none, message := none, uuid := some "u1", request_id := none, requestId := none,
    timestamp := some 1735726620000, model := none, Model := none, requestModel := none }

/-- A raw record whose message has no usage object. -/
def recordNoUsage : RawRecord :=
  { type := none
    message := some { id := some "n1", role := some "assistant", model := none, usage := none }
    uuid := none, request_id := some "rn", requestId := none,
    timestamp := some 1735726620000, model := none, Model := none, requestModel := none }

/-! ### Structural lemmas about the pipeline -/

theorem groupStep_isSome (st : List SessionSet × Option SessionSet) (m : ClaudeMessage) :
    (groupStep st m).2.isSome := by
  obtain ⟨sets, cur⟩ := st
  cases cur with
  | none => rfl
  | some c =>
    simp only [groupStep]
    split
    · rfl
    · split <;> rfl

theorem foldl_groupStep_isSome (l : List ClaudeMessage) (st : List SessionSet × Option SessionSet)
    (h : st.2.isSome) : (l.foldl groupStep st).2.isSome := by
  induction l generalizing st with
  | nil => exact h
  | cons m t ih => exact ih _ (groupStep_isSome st m)

theorem groupIntoFiveHourSets_ne_nil {l : List ClaudeMessage} (h : l ≠ []) :
    groupIntoFiveHourSets l ≠ [] := by
  obtain ⟨m, t, rfl⟩ := List.exists_cons_of_ne_nil h
  have hs := foldl_groupStep_isSome t (groupStep ([], none) m) (groupStep_isSome _ m)
  simp only [groupIntoFiveHourSets, List.foldl_cons]
  rcases hr : (t.foldl groupStep (groupStep ([], none) m)).2 with _ | c
  · rw [hr] at hs
    simp at hs
  · simp [hr]

theorem calculateSessionMetrics_eq (messages : List ClaudeMessage) (sid : String)
    (cfg : PlanConfig) (now : Int) :
    calculateSessionMetrics messages sid cfg now
      = (activeWindow messages now).map (fun w => mkMetrics w sid cfg now) := by
  by_cases hm : messages = []
  · subst hm
    rfl
  · have hlen : ¬ messages.length = 0 := by simpa [List.length_eq_zero] using hm
    simp only [calculateSessionMetrics, if_neg hlen, activeWindow]
    by_cases hr : recentOnly now (sortByTimestamp (uniqueMessages messages)) = []
    · rw [hr]
      simp [groupIntoFiveHourSets, activeSets]
    · have hrl : ¬ (recentOnly now (sortByTimestamp (uniqueMessages messages))).length = 0 := by
        simpa [List.length_eq_zero] using hr
      have hg := groupIntoFiveHourSets_ne_nil hr
      have hgl : ¬ (groupIntoFiveHourSets
          (recentOnly now (sortByTimestamp (uniqueMessages messages)))).length = 0 := by
        simpa [List.length_eq_zero] using hg
      simp only [if_neg hrl, if_neg hgl]
      rcases hlast : (activeSets now (groupIntoFiveHourSets
          (recentOnly now (sortByTimestamp (uniqueMessages messages))))).getLast? with _ | w
      · simp
      · simp

theorem mem_insertByTime {x m : ClaudeMessage} : ∀ {l : List ClaudeMessage},
    x ∈ insertByTime m l ↔ x = m ∨ x ∈ l := by
  intro l
  induction l with
  | nil => simp [insertByTime]
  | cons y ys ih =>
    simp only [insertByTime]
    split
    · simp only [List.mem_cons, ih]
      tauto
    · simp [List.mem_cons]

theorem mem_sortAux (l : List ClaudeMessage) : ∀ (acc : List ClaudeMessage) (x : ClaudeMessage),
    (x ∈ l.foldl (fun a m => insertByTime m a) acc ↔ x ∈ acc ∨ x ∈ l) := by
  induction l with
  | nil => simp
  | cons m t ih =>
    intro acc x
    simp only [List.foldl_cons, ih, mem_insertByTime, List.mem_cons]
    tauto

theorem mem_sortByTimestamp {x : ClaudeMessage} {l : List ClaudeMessage} :
    x ∈ sortByTimestamp l ↔ x ∈ l := by
  simpa [sortByTimestamp] using mem_sortAux l [] x

theorem mem_of_mem_dedupFrom : ∀ {seen : List String} {l : List ClaudeMessage}
    {x : ClaudeMessage}, x ∈ dedupFrom seen l → x ∈ l := by
  intro seen l
  induction l generalizing seen with
  | nil => simp [dedupFrom]
  | cons m t ih =>
    intro x hx
    simp only [dedupFrom] at hx
    split at hx
    · exact List.mem_cons_of_mem _ (ih hx)
    · rcases List.mem_cons.mp hx with h | h
      · exact h ▸ List.mem_cons_self _ _
      · exact List.mem_cons_of_mem _ (ih h)

theorem pairwise_insertByTime {m : ClaudeMessage} : ∀ {l : List ClaudeMessage},
    l.Pairwise (fun a b => a.timestamp ≤ b.timestamp) →
    (insertByTime m l).Pairwise (fun a b => a.timestamp ≤ b.timestamp) := by
  intro l
  induction l with
  | nil => simp [insertByTime]
  | cons y ys ih =>
    intro hp
    rcases List.pairwise_cons.mp hp with ⟨hy, hys⟩
    simp only [insertByTime]
    split
    · refine List.pairwise_cons.mpr ⟨?_, ih hys⟩
      intro a ha
      rcases mem_insertByTime.mp ha with rfl | ha
      · assumption
      · exact hy a ha
    · refine List.pairwise_cons.mpr ⟨?_, hp⟩
      intro a ha
      have hmy : m.timestamp ≤ y.timestamp := le_of_not_le (by assumption)
      rcases List.mem_cons.mp ha with rfl | ha
      · exact hmy
      · exact le_trans hmy (hy a ha)

theorem pairwise_sortAux (l : List ClaudeMessage) : ∀ (acc : List ClaudeMessage),
    acc.Pairwise (fun a b => a.timestamp ≤ b.timestamp) →
    (l.foldl (fun a m => insertByTime m a) acc).Pairwise
      (fun a b => a.timestamp ≤ b.timestamp) := by
  induction l with
  | nil => intro acc h; simpa using h
  | cons m t ih =>
    intro acc h
    exact ih _ (pairwise_insertByTime h)

theorem pairwise_sortByTimestamp (l : List ClaudeMessage) :
    (sortByTimestamp l).Pairwise (fun a b => a.timestamp ≤ b.timestamp) :=
  pairwise_sortAux l [] (List.Pairwise.nil)

theorem pairwise_foldl_groupStep :
    ∀ (l : List ClaudeMessage) (st : List SessionSet × Option SessionSet),
      l.Pairwise (fun a b => a.timestamp ≤ b.timestamp) →
      (∀ s ∈ st.1, s.messages.Pairwise (fun a b => a.timestamp ≤ b.timestamp)) →
      (∀ cur, st.2 = some cur →
        cur.messages.Pairwise (fun a b => a.timestamp ≤ b.timestamp) ∧
        ∀ x ∈ cur.messages, ∀ y ∈ l, x.timestamp ≤ y.timestamp) →
      (∀ s ∈ (l.foldl groupStep st).1,
        s.messages.Pairwise (fun a b => a.timestamp ≤ b.timestamp)) ∧
      (∀ cur, (l.foldl groupStep st).2 = some cur →
        cur.messages.Pairwise (fun a b => a.timestamp ≤ b.timestamp)) := by
  intro l
  induction l with
  | nil =>
    intro st _ hsets hcur
    exact ⟨hsets, fun cur h => (hcur cur h).1⟩
  | cons m t ih =>
    intro st hp hsets hcur
    rcases List.pairwise_cons.mp hp with ⟨hmt, hpt⟩
    obtain ⟨sets, cur?⟩ := st
    simp only [List.foldl_cons]
    cases cur? with
    | none =>
      refine ih (groupStep (sets, none) m) hpt ?_ ?_
      · simpa [groupStep] using hsets
      · intro cur hc
        simp only [groupStep] at hc
        cases hc
        constructor
        · simp [freshSet]
        · intro x hx y hy
          simp only [freshSet, List.mem_singleton] at hx
          subst hx
          exact hmt y hy
    | some c =>
      have hc := hcur c rfl
      simp only [groupStep]
      split
      · refine ih _ hpt ?_ ?_
        · intro s hs
          rcases List.mem_append.mp hs with h | h
          · exact hsets s (by simpa using h)
          · rw [List.mem_singleton.mp h]
            exact hc.1
        · intro cur hcc
          cases hcc
          refine ⟨by simp [freshSet], ?_⟩
          intro x hx y hy
          simp only [freshSet, List.mem_singleton] at hx
          subst hx
          exact hmt y hy
      · split
        · refine ih _ hpt ?_ ?_
          · intro s hs
            rcases List.mem_append.mp hs with h | h
            · exact hsets s (by simpa using h)
            · rw [List.mem_singleton.mp h]
              exact hc.1
          · intro cur hcc
            cases hcc
            refine ⟨by simp [freshSet], ?_⟩
            intro x hx y hy
            simp only [freshSet, List.mem_singleton] at hx
            subst hx
            exact hmt y hy
        · refine ih _ hpt ?_ ?_
          · intro s hs
            exact hsets s (by simpa using hs)
          · intro cur hcc
            cases hcc
            constructor
            · refine List.pairwise_append.mpr ⟨hc.1, by simp, ?_⟩
              intro a ha b hb
              rw [List.mem_singleton.mp hb]
              exact hc.2 a ha m (List.mem_cons_self _ _)
            · intro x hx y hy
              rcases List.mem_append.mp hx with h | h
              · exact hc.2 x h y (List.mem_cons_of_mem _ hy)
              · rw [List.mem_singleton.mp h]
                exact hmt y hy

theorem pairwise_messages_of_mem_group {l : List ClaudeMessage} {w : SessionSet}
    (hl : l.Pairwise (fun a b => a.timestamp ≤ b.timestamp))
    (hw : w ∈ groupIntoFiveHourSets l) :
    w.messages.Pairwise (fun a b => a.timestamp ≤ b.timestamp) := by
  have h := pairwise_foldl_groupStep l ([], none) hl (by simp) (by simp)
  simp only [groupIntoFiveHourSets] at hw
  rcases hres : (l.foldl groupStep ([], none)).2 with _ | c
  · rw [hres] at hw
    exact h.1 _ hw
  · rw [hres] at hw
    rcases List.mem_append.mp hw with h1 | h1
    · exact h.1 _ h1
    · rw [List.mem_singleton.mp h1]
      exact h.2 c hres

theorem pairwise_messages_of_activeWindow {msgs : List ClaudeMessage} {now : Int}
    {w : SessionSet} (h : activeWindow msgs now = some w) :
    w.messages.Pairwise (fun a b => a.timestamp ≤ b.timestamp) := by
  have hw : w ∈ activeSets now (groupIntoFiveHourSets
      (recentOnly now (sortByTimestamp (uniqueMessages msgs)))) :=
    List.mem_of_mem_getLast? h
  have hw2 : w ∈ groupIntoFiveHourSets
      (recentOnly now (sortByTimestamp (uniqueMessages msgs))) :=
    (List.mem_filter.mp hw).1
  refine pairwise_messages_of_mem_group ?_ hw2
  exact (pairwise_sortByTimestamp (uniqueMessages msgs)).filter _

/-! ### Aggregation lemmas -/

theorem foldl_aggStep_totalTokens : ∀ (l : List ClaudeMessage) (st : AggState),
    (l.foldl aggStep st).totalTokens
      = st.totalTokens + sumLimitTokens (dedupUsageFrom st.seenIds l) := by
  intro l
  induction l with
  | nil => intro st; simp [dedupUsageFrom, sumLimitTokens]
  | cons m t ih =>
    intro st
    simp only [List.foldl_cons]
    rcases hu : m.usage with _ | u
    · rw [show aggStep st m = st by simp [aggStep, hu]]
      simp only [dedupUsageFrom, hu]
      exact ih st
    · by_cases hk : dedupKey m ∈ st.seenIds
      · rw [show aggStep st m = st by simp [aggStep, hu, hk]]
        simp only [dedupUsageFrom, hu, if_pos hk]
        exact ih st
      · simp only [aggStep, hu, if_neg hk]
        rw [ih]
        simp only [dedupUsageFrom, hu, if_neg hk, sumLimitTokens, List.map_cons, List.sum_cons,
          Option.elim]
        exact Nat.add_assoc _ _ _

theorem foldl_aggStep_tierSum : ∀ (l : List ClaudeMessage) (st : AggState),
    st.modelBreakdown.opus + st.modelBreakdown.sonnet + st.modelBreakdown.haiku
      = st.totalTokens →
    (l.foldl aggStep st).modelBreakdown.opus + (l.foldl aggStep st).modelBreakdown.sonnet
        + (l.foldl aggStep st).modelBreakdown.haiku
      = (l.foldl aggStep st).totalTokens := by
  intro l
  induction l with
  | nil => intro st h; simpa using h
  | cons m t ih =>
    intro st h
    simp only [List.foldl_cons]
    refine ih (aggStep st m) ?_
    rcases hu : m.usage with _ | u
    · simpa [aggStep, hu] using h
    · by_cases hk : dedupKey m ∈ st.seenIds
      · simpa [aggStep, hu, hk] using h
      · simp only [aggStep, hu, if_neg hk]
        cases htier : getModelTier m.model <;> simp [bumpTier, htier] <;> omega

theorem foldl_add_eq_sum (f : ClaudeMessage → ℚ) : ∀ (l : List ClaudeMessage) (a : ℚ),
    l.foldl (fun s m => s + f m) a = a + (l.map f).sum := by
  intro l
  induction l with
  | nil => simp
  | cons m t ih =>
    intro a
    simp only [List.foldl_cons, List.map_cons, List.sum_cons, ih]
    ring

/-! ### Congruence of the pipeline under per-message transformations

A transformation `f` that preserves the dedup key, the timestamp and
the billed-token content of every message cannot change the
`totalTokens` of the computed metrics. Instantiated with `stripCache`,
this shows cache counters never influence `totalTokens`. -/

theorem dedupFrom_map {f : ClaudeMessage → ClaudeMessage}
    (hkey : ∀ m, dedupKey (f m) = dedupKey m) :
    ∀ (l : List ClaudeMessage) (seen : List String),
      dedupFrom seen (l.map f) = (dedupFrom seen l).map f := by
  intro l
  induction l with
  | nil => intro seen; rfl
  | cons m t ih =>
    intro seen
    simp only [List.map_cons, dedupFrom, hkey]
    by_cases hk : dedupKey m ∈ seen
    · simp [hk, ih]
    · simp [hk, ih]

theorem insertByTime_map {f : ClaudeMessage → ClaudeMessage}
    (hts : ∀ m, (f m).timestamp = m.timestamp) (m : ClaudeMessage) :
    ∀ (l : List ClaudeMessage), insertByTime (f m) (l.map f) = (insertByTime m l).map f := by
  intro l
  induction l with
  | nil => rfl
  | cons y ys ih =>
    simp only [List.map_cons, insertByTime, hts]
    by_cases hc : y.timestamp ≤ m.timestamp
    · simp [hc, ih]
    · simp [hc]

theorem sortByTimestamp_map {f : ClaudeMessage → ClaudeMessage}
    (hts : ∀ m, (f m).timestamp = m.timestamp) (l : List ClaudeMessage) :
    sortByTimestamp (l.map f) = (sortByTimestamp l).map f := by
  suffices h : ∀ (l acc : List ClaudeMessage),
      (l.map f).foldl (fun a m => insertByTime m a) (acc.map f)
        = (l.foldl (fun a m => insertByTime m a) acc).map f by
    simpa [sortByTimestamp] using h l []
  intro l
  induction l with
  | nil => intro acc; rfl
  | cons m t ih =>
    intro acc
    simp only [List.map_cons, List.foldl_cons]
    rw [insertByTime_map hts m acc]
    exact ih _

theorem recentOnly_map {f : ClaudeMessage → ClaudeMessage}
    (hts : ∀ m, (f m).timestamp = m.timestamp) (now : Int) (l : List ClaudeMessage) :
    recentOnly now (l.map f) = (recentOnly now l).map f := by
  simp only [recentOnly, List.filter_map]
  congr 1
  refine List.filter_congr ?_
  intro m _
  simp [Function.comp, hts]

theorem freshSet_map {f : ClaudeMessage → ClaudeMessage}
    (hts : ∀ m, (f m).timestamp = m.timestamp) (m : ClaudeMessage) :
    freshSet (f m) = mapSet f (freshSet m) := by
  simp [freshSet, mapSet, hts]

theorem groupStep_map {f : ClaudeMessage → ClaudeMessage}
    (hts : ∀ m, (f m).timestamp = m.timestamp) (sets : List SessionSet)
    (cur? : Option SessionSet) (m : ClaudeMessage) :
    groupStep (sets.map (mapSet f), cur?.map (mapSet f)) (f m)
      = ((groupStep (sets, cur?) m).1.map (mapSet f),
         (groupStep (sets, cur?) m).2.map (mapSet f)) := by
  cases cur? with
  | none => simp [groupStep, freshSet_map hts]
  | some c =>
    simp only [Option.map_some', groupStep]
    have hend : (mapSet f c).endTime = c.endTime := rfl
    have hlast : (mapSet f c).lastMessageTime = c.lastMessageTime := rfl
    by_cases h1 : c.endTime ≤ m.timestamp
    · simp [hend, hts, h1, freshSet_map hts]
    · by_cases h2 : 0 < c.messages.length ∧
          SESSION_DURATION_MS ≤ m.timestamp - c.lastMessageTime
      · simp [hend, hlast, hts, h1, h2, mapSet, freshSet_map hts]
      · have h2' : ¬ (0 < (mapSet f c).messages.length ∧
            SESSION_DURATION_MS ≤ (f m).timestamp - (mapSet f c).lastMessageTime) := by
          simpa [mapSet, hts] using h2
        simp [hend, hts, h1, h2, h2', mapSet]

theorem foldl_groupStep_map {f : ClaudeMessage → ClaudeMessage}
    (hts : ∀ m, (f m).timestamp = m.timestamp) :
    ∀ (l : List ClaudeMessage) (sets : List SessionSet) (cur? : Option SessionSet),
      (l.map f).foldl groupStep (sets.map (mapSet f), cur?.map (mapSet f))
        = ((l.foldl groupStep (sets, cur?)).1.map (mapSet f),
           (l.foldl groupStep (sets, cur?)).2.map (mapSet f)) := by
  intro l
  induction l with
  | nil => intro sets cur?; rfl
  | cons m t ih =>
    intro sets cur?
    simp only [List.map_cons, List.foldl_cons]
    rw [groupStep_map hts]
    obtain ⟨sets', cur?'⟩ := groupStep (sets, cur?) m
    exact ih sets' cur?'

theorem groupIntoFiveHourSets_map {f : ClaudeMessage → ClaudeMessage}
    (hts : ∀ m, (f m).timestamp = m.timestamp) (l : List ClaudeMessage) :
    groupIntoFiveHourSets (l.map f) = (groupIntoFiveHourSets l).map (mapSet f) := by
  simp only [groupIntoFiveHourSets]
  have h := foldl_groupStep_map hts l [] none
  simp only [List.map_nil, Option.map_none'] at h
  rw [h]
  rcases (l.foldl groupStep ([], none)).2 with _ | c
  · simp
  · simp

theorem activeSets_map {f : ClaudeMessage → ClaudeMessage} (now : Int)
    (sets : List SessionSet) :
    activeSets now (sets.map (mapSet f)) = (activeSets now sets).map (mapSet f) := by
  simp only [activeSets, List.filter_map]
  congr 1

theorem activeWindow_map {f : ClaudeMessage → ClaudeMessage}
    (hkey : ∀ m, dedupKey (f m) = dedupKey m)
    (hts : ∀ m, (f m).timestamp = m.timestamp) (l : List ClaudeMessage) (now : Int) :
    activeWindow (l.map f) now = (activeWindow l now).map (mapSet f) := by
  simp only [activeWindow, uniqueMessages]
  rw [dedupFrom_map hkey, sortByTimestamp_map hts, recentOnly_map hts,
    groupIntoFiveHourSets_map hts, activeSets_map, List.getLast?_map]

theorem dedupUsageFrom_map {f : ClaudeMessage → ClaudeMessage}
    (hkey : ∀ m, dedupKey (f m) = dedupKey m)
    (husage : ∀ m, (f m).usage.map calculateLimitTokens = m.usage.map calculateLimitTokens) :
    ∀ (l : List ClaudeMessage) (seen : List String),
      dedupUsageFrom seen (l.map f) = (dedupUsageFrom seen l).map f := by
  intro l
  induction l with
  | nil => intro seen; rfl
  | cons m t ih =>
    intro seen
    simp only [List.map_cons, dedupUsageFrom, hkey]
    rcases hu : m.usage with _ | u
    · have hu' : (f m).usage = none := by
        have := husage m
        rw [hu] at this
        simpa using this
      simp only [hu', hu]
      exact ih seen
    · obtain ⟨u', hu'⟩ : ∃ u', (f m).usage = some u' := by
        have := husage m
        rw [hu] at this
        rcases h : (f m).usage with _ | v
        · rw [h] at this; simp at this
        · exact ⟨v, rfl⟩
      simp only [hu', hu]
      by_cases hk : dedupKey m ∈ seen
      · simp [hk, ih]
      · simp [hk, ih]

theorem sumLimitTokens_map {f : ClaudeMessage → ClaudeMessage}
    (husage : ∀ m, (f m).usage.map calculateLimitTokens = m.usage.map calculateLimitTokens)
    (l : List ClaudeMessage) :
    sumLimitTokens (l.map f) = sumLimitTokens l := by
  simp only [sumLimitTokens, List.map_map]
  congr 1
  refine List.map_congr_left ?_
  intro m _
  have := husage m
  rcases hu : m.usage with _ | u
  · rw [hu] at this
    rcases h : (f m).usage with _ | v
    · simp [Function.comp, h]
    · rw [h] at this; simp at this
  · rw [hu] at this
    rcases h : (f m).usage with _ | v
    · rw [h] at this; simp at this
    · rw [h] at this
      simp only [Option.map_some', Option.some.injEq] at this
      simp [Function.comp, h, this]

theorem mkMetrics_map_totalTokens {f : ClaudeMessage → ClaudeMessage}
    (hkey : ∀ m, dedupKey (f m) = dedupKey m)
    (husage : ∀ m, (f m).usage.map calculateLimitTokens = m.usage.map calculateLimitTokens)
    (w : SessionSet) (sid : String) (cfg : PlanConfig) (now : Int) :
    (mkMetrics (mapSet f w) sid cfg now).totalTokens
      = (mkMetrics w sid cfg now).totalTokens := by
  show ((mapSet f w).messages.foldl aggStep initAgg).totalTokens
      = (w.messages.foldl aggStep initAgg).totalTokens
  rw [show (mapSet f w).messages = w.messages.map f from rfl]
  rw [foldl_aggStep_totalTokens, foldl_aggStep_totalTokens]
  rw [show initAgg.seenIds = [] from rfl]
  rw [dedupUsageFrom_map hkey husage, sumLimitTokens_map husage]

theorem calculateSessionMetrics_map_totalTokens {f : ClaudeMessage → ClaudeMessage}
    (hkey : ∀ m, dedupKey (f m) = dedupKey m)
    (hts : ∀ m, (f m).timestamp = m.timestamp)
    (husage : ∀ m, (f m).usage.map calculateLimitTokens = m.usage.map calculateLimitTokens)
    (l : List ClaudeMessage) (sid : String) (cfg : PlanConfig) (now : Int) :
    (calculateSessionMetrics (l.map f) sid cfg now).map SessionMetrics.totalTokens
      = (calculateSessionMetrics l sid cfg now).map SessionMetrics.totalTokens := by
  rw [calculateSessionMetrics_eq, calculateSessionMetrics_eq, activeWindow_map hkey hts]
  rcases activeWindow l now with _ | w
  · rfl
  · simp [mkMetrics_map_totalTokens hkey husage]

theorem stripCache_key (m : ClaudeMessage) : dedupKey (stripCache m) = dedupKey m := rfl

theorem stripCache_ts (m : ClaudeMessage) : (stripCache m).timestamp = m.timestamp := rfl

theorem stripCache_usage (m : ClaudeMessage) :
    (stripCache m).usage.map calculateLimitTokens = m.usage.map calculateLimitTokens := by
  rcases hu : m.usage with _ | u <;> simp [stripCache, hu, calculateLimitTokens]

/-! ### Dedup idempotence and inversion helpers -/

theorem dedupFrom_idem : ∀ (l : List ClaudeMessage) (seen : List String),
    dedupFrom seen (dedupFrom seen l) = dedupFrom seen l := by
  intro l
  induction l with
  | nil => intro seen; rfl
  | cons m t ih =>
    intro seen
    by_cases hk : dedupKey m ∈ seen
    · simp only [dedupFrom, if_pos hk]
      exact ih seen
    · simp only [dedupFrom, if_neg hk]
      rw [ih]

theorem uniqueMessages_idem (l : List ClaudeMessage) :
    uniqueMessages (uniqueMessages l) = uniqueMessages l :=
  dedupFrom_idem l []

theorem calculateSessionMetrics_some {msgs : List ClaudeMessage} {sid : String}
    {cfg : PlanConfig} {now : Int} {m : SessionMetrics}
    (h : calculateSessionMetrics msgs sid cfg now = some m) :
    ∃ w, activeWindow msgs now = some w ∧ m = mkMetrics w sid cfg now := by
  rw [calculateSessionMetrics_eq] at h
  rcases Option.map_eq_some'.mp h with ⟨w, hw, hmk⟩
  exact ⟨w, hw, hmk.symm⟩

theorem activeWindow_candidate {msgs : List ClaudeMessage} {now : Int} {w : SessionSet}
    (h : activeWindow msgs now = some w) : w.startTime ≤ now ∧ now ≤ w.endTime := by
  have hw : w ∈ activeSets now (groupIntoFiveHourSets
      (recentOnly now (sortByTimestamp (uniqueMessages msgs)))) :=
    List.mem_of_mem_getLast? h
  have := (List.mem_filter.mp hw).2
  simpa using this

/-! ### Claim theorems -/

/-- C1: the `totalTokens` of every returned `Metrics` is the sum of
`inputTokens + outputTokens` over the active window's deduplicated
usage-bearing events; changing only cache counters (however large)
never changes `totalTokens`; and cache counters do enter `totalCost`
through the per-event cost formula (which bills all four kinds), so
injecting cache tokens can change the cost. -/
theorem C1_totalTokens_quota_exclusion :
    (∀ (msgs : List ClaudeMessage) (sid : String) (cfg : PlanConfig) (now : Int)
        (m : SessionMetrics) (w : SessionSet),
        calculateSessionMetrics msgs sid cfg now = some m →
        activeWindow msgs now = some w →
        m.totalTokens = sumLimitTokens (dedupUsageFrom [] w.messages))
    ∧ (∀ (l₁ l₂ : List ClaudeMessage) (sid : String) (cfg : PlanConfig) (now : Int),
        l₁.map stripCache = l₂.map stripCache →
        (calculateSessionMetrics l₁ sid cfg now).map SessionMetrics.totalTokens
          = (calculateSessionMetrics l₂ sid cfg now).map SessionMetrics.totalTokens)
    ∧ (∀ (u : MessageUsage) (modelName : Option String),
        calculateMessageCost u modelName
          = (jsRound ((((u.input_tokens : ℚ) / 1000000)
                  * (MODEL_PRICING (getModelTier modelName)).input
                + ((u.output_tokens : ℚ) / 1000000)
                  * (MODEL_PRICING (getModelTier modelName)).output
                + ((u.cache_creation_input_tokens : ℚ) / 1000000)
                  * (MODEL_PRICING (getModelTier modelName)).cacheCreation
                + ((u.cache_read_input_tokens : ℚ) / 1000000)
                  * (MODEL_PRICING (getModelTier modelName)).cacheRead) * 1000000) : ℚ)
              / 1000000)
    ∧ calculateMessageCost ⟨100, 0, 0, 50⟩ (some "claude-3-5-sonnet")
        ≠ calculateMessageCost ⟨100, 1000000, 0, 50⟩ (some "claude-3-5-sonnet") := by
  refine ⟨?_, ?_, ?_, ?_⟩
  · intro msgs sid cfg now m w h hw
    obtain ⟨w', hw', rfl⟩ := calculateSessionMetrics_some h
    rw [hw] at hw'
    cases hw'
    show (w.messages.foldl aggStep initAgg).totalTokens = _
    rw [foldl_aggStep_totalTokens]
    simp [initAgg]
  · intro l₁ l₂ sid cfg now heq
    have h1 := calculateSessionMetrics_map_totalTokens stripCache_key stripCache_ts
      stripCache_usage l₁ sid cfg now
    have h2 := calculateSessionMetrics_map_totalTokens stripCache_key stripCache_ts
      stripCache_usage l₂ sid cfg now
    rw [← h1, ← h2, heq]
  · intro u modelName
    rfl
  · exact of_decide_eq_true (by with_unfolding_all rfl)

/-- C1 witness: the theorem applied to Scenario A (token total of the
active window), and to Scenario A with large cache counters injected
(`totalTokens` unchanged). -/
theorem C1_totalTokens_quota_exclusion_witness :
    metricsA.totalTokens = sumLimitTokens (dedupUsageFrom [] windowA.messages)
    ∧ (calculateSessionMetrics [msgACache] "s1" cfgA nowA).map SessionMetrics.totalTokens
        = (calculateSessionMetrics [msgA] "s1" cfgA nowA).map SessionMetrics.totalTokens := by
  refine ⟨C1_totalTokens_quota_exclusion.1 [msgA] "s1" cfgA nowA metricsA windowA
      (by with_unfolding_all rfl) (by with_unfolding_all rfl),
    C1_totalTokens_quota_exclusion.2.1 [msgACache] [msgA] "s1" cfgA nowA
      (by with_unfolding_all rfl)⟩

/-- C2: one step of window partitioning — an event at or past the open
window's end closes it and opens a fresh window floor-anchored to the
event's hour (so an event exactly at `windowEnd` seeds the next window
and is not appended to the closing one); an event before the end but at
least 5 hours after the window's last event also closes it; otherwise
the event is appended and `lastMessageTime` updated. -/
theorem C2_partition_step (sets : List SessionSet) (cur : SessionSet) (m : ClaudeMessage) :
    (cur.endTime ≤ m.timestamp →
      groupStep (sets, some cur) m = (sets ++ [cur], some (freshSet m))
        ∧ (freshSet m).startTime = roundToNearestHour m.timestamp
        ∧ (freshSet m).endTime = roundToNearestHour m.timestamp + SESSION_DURATION_MS
        ∧ (freshSet m).messages = [m])
    ∧ (m.timestamp < cur.endTime → 0 < cur.messages.length →
        SESSION_DURATION_MS ≤ m.timestamp - cur.lastMessageTime →
        groupStep (sets, some cur) m = (sets ++ [cur], some (freshSet m)))
    ∧ (m.timestamp < cur.endTime → m.timestamp - cur.lastMessageTime < SESSION_DURATION_MS →
        groupStep (sets, some cur) m
          = (sets, some { cur with
              messages := cur.messages ++ [m]
              lastMessageTime := m.timestamp })) := by
  refine ⟨?_, ?_, ?_⟩
  · intro h
    refine ⟨?_, rfl, rfl, rfl⟩
    simp [groupStep, if_pos h]
  · intro h1 h2 h3
    simp [groupStep, if_neg (not_le.mpr h1), if_pos (And.intro h2 h3)]
  · intro h1 h2
    have hng : ¬ (0 < cur.messages.length
        ∧ SESSION_DURATION_MS ≤ m.timestamp - cur.lastMessageTime) := by
      rintro ⟨-, hc⟩
      exact absurd h2 (not_lt.mpr hc)
    simp [groupStep, if_neg (not_le.mpr h1), if_neg hng]

/-- C2 witness: the three branches exercised concretely — `msgB` lands
exactly on `curA`'s end and opens the next window, `msgGapEvt` is
before `curGap`'s end but over 5 hours after its last event, and `msgC`
is appended to `curA`. -/
theorem C2_partition_step_witness :
    groupStep ([], some curA) msgB = ([curA], some (freshSet msgB))
    ∧ groupStep ([], some curGap) msgGapEvt = ([curGap], some (freshSet msgGapEvt))
    ∧ groupStep ([], some curA) msgC
        = ([], some { curA with
            messages := curA.messages ++ [msgC]
            lastMessageTime := msgC.timestamp }) :=
  ⟨((C2_partition_step [] curA msgB).1 (by decide)).1,
    (C2_partition_step [] curGap msgGapEvt).2.1 (by decide) (by decide) (by decide),
    (C2_partition_step [] curA msgC).2.2 (by decide) (by decide)⟩

/-- C3: Scenario A — a single event at 2025-01-01T10:17:00Z with 100
input and 50 output tokens on `claude-3-5-sonnet`, evaluated at
10:20:00Z, yields a window from 10:00:00Z (the event's hour, floored)
to 15:00:00Z, active, with 150 total tokens and cost
(100·3 + 50·15)/1e6 = 0.00105 USD. -/
theorem C3_scenarioA :
    (calculateSessionMetrics [msgA] "s1" cfgA nowA).map SessionMetrics.startTime
        = some 1735725600000
    ∧ (calculateSessionMetrics [msgA] "s1" cfgA nowA).map SessionMetrics.sessionEndTime
        = some 1735743600000
    ∧ (calculateSessionMetrics [msgA] "s1" cfgA nowA).map SessionMetrics.isActive
        = some true
    ∧ (calculateSessionMetrics [msgA] "s1" cfgA nowA).map SessionMetrics.totalTokens
        = some 150
    ∧ (calculateSessionMetrics [msgA] "s1" cfgA nowA).map SessionMetrics.totalCost
        = some ((100 * 3 + 50 * 15 : ℚ) / 1000000)
    ∧ ((100 * 3 + 50 * 15 : ℚ) / 1000000 = 0.00105)
    ∧ roundToNearestHour msgA.timestamp = 1735725600000
    ∧ (1735725600000 : Int) + SESSION_DURATION_MS = 1735743600000 := by
  refine ⟨?_, ?_, ?_, ?_, ?_, ?_, ?_, ?_⟩ <;> with_unfolding_all rfl

/-- C4: deduplication keys events by `id + ":" + requestId` and keeps
first occurrences, and the engine is invariant under pre-deduplication:
any input list (in particular one with an event duplicated N times
under one compound key, with arbitrary drift in other fields) produces
the same metrics as the list with only first occurrences kept. -/
theorem C4_dedup_idempotent :
    (∀ (l : List ClaudeMessage) (sid : String) (cfg : PlanConfig) (now : Int),
        calculateSessionMetrics l sid cfg now
          = calculateSessionMetrics (uniqueMessages l) sid cfg now)
    ∧ (∀ l, uniqueMessages (uniqueMessages l) = uniqueMessages l)
    ∧ (∀ m, dedupKey m = m.id ++ ":" ++ m.requestId) := by
  refine ⟨?_, uniqueMessages_idem, fun m => rfl⟩
  intro l sid cfg now
  rw [calculateSessionMetrics_eq, calculateSessionMetrics_eq]
  have : activeWindow (uniqueMessages l) now = activeWindow l now := by
    simp only [activeWindow, uniqueMessages_idem]
  rw [this]

/-- C5: every returned metrics value has
`timeRemaining = max 0 (windowEnd − now)` and
`isActive = (timeRemaining > 0)`; the selected window always satisfies
the candidate predicate `start ≤ now ≤ end` (so `now` equal to the end
is still selectable), and at `now = windowEnd` the result has
`isActive = false` and `timeRemaining = 0`. -/
theorem C5_time_remaining_isActive :
    ∀ (msgs : List ClaudeMessage) (sid : String) (cfg : PlanConfig) (now : Int)
      (m : SessionMetrics),
      calculateSessionMetrics msgs sid cfg now = some m →
      m.timeRemaining = max 0 (m.sessionEndTime - now)
      ∧ m.isActive = decide (0 < m.timeRemaining)
      ∧ (∃ w, activeWindow msgs now = some w ∧ w.startTime ≤ now ∧ now ≤ w.endTime
          ∧ m.startTime = w.startTime ∧ m.sessionEndTime = w.endTime)
      ∧ (m.sessionEndTime = now → m.isActive = false ∧ m.timeRemaining = 0) := by
  intro msgs sid cfg now m h
  obtain ⟨w, hw, rfl⟩ := calculateSessionMetrics_some h
  obtain ⟨hc1, hc2⟩ := activeWindow_candidate hw
  refine ⟨rfl, rfl, ⟨w, hw, hc1, hc2, rfl, rfl⟩, ?_⟩
  intro hEnd
  have hwe : w.endTime = now := hEnd
  constructor
  · show decide (0 < max 0 (w.endTime - now)) = false
    rw [hwe]
    simp
  · show max 0 (w.endTime - now) = 0
    rw [hwe]
    simp

/-- C5 witness: the theorem applied to Scenario A's event evaluated at
`now` exactly equal to the window's end (15:00:00Z). -/
theorem C5_time_remaining_isActive_witness :
    metricsEnd.timeRemaining = max 0 (metricsEnd.sessionEndTime - endNowA)
    ∧ metricsEnd.isActive = false ∧ metricsEnd.timeRemaining = 0 := by
  obtain ⟨h1, h2, h3, h4⟩ := C5_time_remaining_isActive [msgA] "s1" cfgA endNowA metricsEnd
    (by with_unfolding_all rfl)
  obtain ⟨h5, h6⟩ := h4 (by with_unfolding_all rfl)
  exact ⟨h1, h5, h6⟩

/-- C6: each burn rate is computed on the active window's events
restricted to the trailing 10-minute sub-window ending at `now`; an
empty sub-window gives rate 0, and otherwise each rate is the sum of
the per-event values divided by the minutes elapsed from the earliest
event of the sub-window (its head, the list being chronologically
sorted) to `now` — not a fixed 10-minute divisor. -/
theorem C6_burn_rates :
    ∀ (msgs : List ClaudeMessage) (sid : String) (cfg : PlanConfig) (now : Int)
      (m : SessionMetrics) (w : SessionSet),
      calculateSessionMetrics msgs sid cfg now = some m →
      activeWindow msgs now = some w →
      (w.messages.filter (fun x => decide (now - BURN_RATE_WINDOW_MS ≤ x.timestamp)) = [] →
        m.tokenBurnRate = 0 ∧ m.costBurnRate = 0 ∧ m.messageBurnRate = 0)
      ∧ (∀ (e : ClaudeMessage) (rest : List ClaudeMessage),
          w.messages.filter (fun x => decide (now - BURN_RATE_WINDOW_MS ≤ x.timestamp))
            = e :: rest →
          (∀ x ∈ e :: rest, e.timestamp ≤ x.timestamp)
          ∧ (0 < ((now - e.timestamp : Int) : ℚ) / (60 * 1000) →
              m.tokenBurnRate = ((e :: rest).map tokenValue).sum
                  / (((now - e.timestamp : Int) : ℚ) / (60 * 1000))
              ∧ m.costBurnRate = ((e :: rest).map costValue).sum
                  / (((now - e.timestamp : Int) : ℚ) / (60 * 1000))
              ∧ m.messageBurnRate = ((e :: rest).map messageValue).sum
                  / (((now - e.timestamp : Int) : ℚ) / (60 * 1000)))) := by
  intro msgs sid cfg now m w h hw
  obtain ⟨w', hw', rfl⟩ := calculateSessionMetrics_some h
  rw [hw] at hw'
  cases hw'
  constructor
  · intro hfilter
    refine ⟨?_, ?_, ?_⟩ <;>
      · show calculateBurnRate w.messages now _ = 0
        simp only [calculateBurnRate]
        rw [hfilter]
  · intro e rest hfilter
    constructor
    · have hp : (e :: rest).Pairwise (fun a b => a.timestamp ≤ b.timestamp) := by
        rw [← hfilter]
        exact (pairwise_messages_of_activeWindow hw).filter _
      intro x hx
      rcases List.mem_cons.mp hx with rfl | hx
      · exact le_refl _
      · exact (List.pairwise_cons.mp hp).1 x hx
    · intro hpos
      refine ⟨?_, ?_, ?_⟩ <;>
        · show calculateBurnRate w.messages now _ = _
          simp only [calculateBurnRate, hfilter]
          rw [if_pos hpos, foldl_add_eq_sum]
          rw [zero_add]

/-- C6 witness: Scenario A at 10:20:00Z — the sub-window holds exactly
the 10:17:00Z event, elapsed is 3 minutes, and the three rates are
150/3, 0.00105/3 and 1/3 per minute. -/
theorem C6_burn_rates_witness :
    metricsA.tokenBurnRate = ([msgA].map tokenValue).sum
        / (((nowA - msgA.timestamp : Int) : ℚ) / (60 * 1000))
    ∧ metricsA.costBurnRate = ([msgA].map costValue).sum
        / (((nowA - msgA.timestamp : Int) : ℚ) / (60 * 1000))
    ∧ metricsA.messageBurnRate = ([msgA].map messageValue).sum
        / (((nowA - msgA.timestamp : Int) : ℚ) / (60 * 1000)) := by
  obtain ⟨hempty, hcons⟩ := C6_burn_rates [msgA] "s1" cfgA nowA metricsA windowA
    (by with_unfolding_all rfl) (by with_unfolding_all rfl)
  obtain ⟨hfirst, hrates⟩ := hcons msgA [] (by with_unfolding_all rfl)
  exact hrates (of_decide_eq_true (by with_unfolding_all rfl))

/-- C7: pricing-tier resolution lowercases the model name and tests
substring containment in the priority order opus, haiku, sonnet,
defaulting to sonnet for unknown names and for an absent model. -/
theorem C7_model_tier :
    getModelTier none = ModelTier.sonnet
    ∧ (∀ s, jsIncludes s.toLower "opus" = true → getModelTier (some s) = ModelTier.opus)
    ∧ (∀ s, jsIncludes s.toLower "opus" = false → jsIncludes s.toLower "haiku" = true →
        getModelTier (some s) = ModelTier.haiku)
    ∧ (∀ s, jsIncludes s.toLower "opus" = false → jsIncludes s.toLower "haiku" = false →
        jsIncludes s.toLower "sonnet" = true → getModelTier (some s) = ModelTier.sonnet)
    ∧ (∀ s, jsIncludes s.toLower "opus" = false → jsIncludes s.toLower "haiku" = false →
        jsIncludes s.toLower "sonnet" = false → getModelTier (some s) = ModelTier.sonnet) := by
  refine ⟨rfl, ?_, ?_, ?_, ?_⟩
  · intro s h
    simp [getModelTier, h]
  · intro s h1 h2
    simp [getModelTier, h1, h2]
  · intro s h1 h2 h3
    simp [getModelTier, h1, h2, h3]
  · intro s h1 h2 h3
    simp [getModelTier, h1, h2, h3]

/-- C7 witness: the theorem applied to a capitalized opus name, a haiku
name, a sonnet name and an unrecognized name. -/
theorem C7_model_tier_witness :
    getModelTier (some "Claude-Opus-4-1-20250805") = ModelTier.opus
    ∧ getModelTier (some "claude-3-5-haiku") = ModelTier.haiku
    ∧ getModelTier (some "claude-sonnet-4-5-20250929") = ModelTier.sonnet
    ∧ getModelTier (some "gpt-4o") = ModelTier.sonnet :=
  ⟨C7_model_tier.2.1 "Claude-Opus-4-1-20250805" (by with_unfolding_all rfl),
    C7_model_tier.2.2.1 "claude-3-5-haiku" (by with_unfolding_all rfl)
      (by with_unfolding_all rfl),
    C7_model_tier.2.2.2.1 "claude-sonnet-4-5-20250929" (by with_unfolding_all rfl)
      (by with_unfolding_all rfl) (by with_unfolding_all rfl),
    C7_model_tier.2.2.2.2 "gpt-4o" (by with_unfolding_all rfl) (by with_unfolding_all rfl)
      (by with_unfolding_all rfl)⟩

/-- C8: the normalizer discards records without a nested usage object
(including records without a message) and records whose usage has
`inputTokens + outputTokens = 0`; in particular the Scenario D record
(1000 cache-creation tokens, zero billed tokens) is discarded and its
presence in a raw stream never changes the computed metrics. -/
theorem C8_normalizer_discards :
    (∀ (r : RawRecord) (proj : Option String) (nowTs : Int),
        r.message = none → parseRecord r proj nowTs = none)
    ∧ (∀ (r : RawRecord) (proj : Option String) (nowTs : Int) (msg : RawMessage),
        r.message = some msg → msg.usage = none → parseRecord r proj nowTs = none)
    ∧ (∀ (r : RawRecord) (proj : Option String) (nowTs : Int) (msg : RawMessage)
        (u : RawUsage),
        r.message = some msg → msg.usage = some u →
        u.input_tokens.getD 0 + u.output_tokens.getD 0 = 0 →
        parseRecord r proj nowTs = none)
    ∧ (∀ (proj : Option String) (nowTs : Int), parseRecord recordD proj nowTs = none)
    ∧ (∀ (raws₁ raws₂ : List RawRecord) (proj : Option String) (nowTs : Int)
        (sid : String) (cfg : PlanConfig) (now : Int),
        calculateSessionMetrics ((raws₁ ++ recordD :: raws₂).filterMap
            (fun r => parseRecord r proj nowTs)) sid cfg now
          = calculateSessionMetrics ((raws₁ ++ raws₂).filterMap
            (fun r => parseRecord r proj nowTs)) sid cfg now) := by
  have hD : ∀ (proj : Option String) (nowTs : Int), parseRecord recordD proj nowTs = none := by
    intro proj nowTs
    rfl
  refine ⟨?_, ?_, ?_, hD, ?_⟩
  · intro r proj nowTs hmsg
    simp [parseRecord, hmsg]
  · intro r proj nowTs msg hmsg husage
    simp [parseRecord, hmsg, husage]
  · intro r proj nowTs msg u hmsg husage hzero
    simp only [parseRecord, hmsg, husage]
    have hin : u.input_tokens.getD 0 = 0 := by omega
    have hout : u.output_tokens.getD 0 = 0 := by omega
    have h1 : (match u.input_tokens with
        | some n => decide (0 < n)
        | none => false) = false := by
      rcases hi : u.input_tokens with _ | n
      · rfl
      · rw [hi] at hin
        simp only [Option.getD_some] at hin
        simp [hin]
    have h2 : (match u.output_tokens with
        | some n => decide (0 < n)
        | none => false) = false := by
      rcases ho : u.output_tokens with _ | n
      · rfl
      · rw [ho] at hout
        simp only [Option.getD_some] at hout
        simp [hout]
    rw [h1, h2]
    simp
  · intro raws₁ raws₂ proj nowTs sid cfg now
    rw [List.filterMap_append, List.filterMap_append, List.filterMap_cons, hD proj nowTs]

/-- C8 witness: the theorem applied to a record without a message, a
record without usage, the Scenario D record, and a stream consisting of
only the Scenario D record. -/
theorem C8_normalizer_discards_witness :
    parseRecord recordNoMsg none 0 = none
    ∧ parseRecord recordNoUsage none 0 = none
    ∧ parseRecord recordD none 0 = none
    ∧ calculateSessionMetrics ([recordD].filterMap (fun r => parseRecord r none 0))
        "s1" cfgA nowA
      = calculateSessionMetrics (([] : List RawRecord).filterMap (fun r => parseRecord r none 0))
        "s1" cfgA nowA := by
  refine ⟨C8_normalizer_discards.1 recordNoMsg none 0 rfl,
    C8_normalizer_discards.2.1 recordNoUsage none 0
      { id := some "n1", role := some "assistant", model := none, usage := none } rfl rfl,
    C8_normalizer_discards.2.2.2.1 none 0,
    ?_⟩
  have h := C8_normalizer_discards.2.2.2.2 [] [] none 0 "s1" cfgA nowA
  simpa using h

/-- C9: the engine is total and degenerate inputs collapse to the
`NoActiveSession` value (`none`): the empty list, a list whose events
all predate the 192-hour staleness horizon, and any input whose windows
do not contain `now`; and the burn-rate computation returns 0 both on
an empty trailing sub-window and when the elapsed-time denominator is
not positive. -/
theorem C9_never_raises :
    (∀ (sid : String) (cfg : PlanConfig) (now : Int),
        calculateSessionMetrics [] sid cfg now = none)
    ∧ (∀ (msgs : List ClaudeMessage) (sid : String) (cfg : PlanConfig) (now : Int),
        (∀ x ∈ msgs, x.timestamp < now - HOURS_BACK * 60 * 60 * 1000) →
        calculateSessionMetrics msgs sid cfg now = none)
    ∧ (∀ (msgs : List ClaudeMessage) (sid : String) (cfg : PlanConfig) (now : Int),
        activeWindow msgs now = none → calculateSessionMetrics msgs sid cfg now = none)
    ∧ (∀ (msgs : List ClaudeMessage) (now : Int) (v : ClaudeMessage → ℚ),
        msgs.filter (fun x => decide (now - BURN_RATE_WINDOW_MS ≤ x.timestamp)) = [] →
        calculateBurnRate msgs now v = 0)
    ∧ (∀ (msgs : List ClaudeMessage) (now : Int) (v : ClaudeMessage → ℚ)
        (e : ClaudeMessage) (rest : List ClaudeMessage),
        msgs.filter (fun x => decide (now - BURN_RATE_WINDOW_MS ≤ x.timestamp)) = e :: rest →
        ((now - e.timestamp : Int) : ℚ) / (60 * 1000) ≤ 0 →
        calculateBurnRate msgs now v = 0) := by
  refine ⟨fun sid cfg now => rfl, ?_, ?_, ?_, ?_⟩
  · intro msgs sid cfg now hstale
    rw [calculateSessionMetrics_eq]
    have hrec : recentOnly now (sortByTimestamp (uniqueMessages msgs)) = [] := by
      simp only [recentOnly]
      rw [List.filter_eq_nil_iff]
      intro a ha
      have hm : a ∈ msgs := mem_of_mem_dedupFrom (mem_sortByTimestamp.mp ha)
      simpa using not_le.mpr (hstale a hm)
    simp only [activeWindow, hrec]
    rfl
  · intro msgs sid cfg now hnone
    rw [calculateSessionMetrics_eq, hnone]
    rfl
  · intro msgs now v hfilter
    simp only [calculateBurnRate]
    rw [hfilter]
  · intro msgs now v e rest hfilter hle
    simp only [calculateBurnRate, hfilter]
    rw [if_neg (not_lt.mpr hle)]

/-- C9 witness: the theorem applied to the empty list, a single stale
event, a `now` before any window, an empty trailing sub-window, and a
zero elapsed-time denominator. -/
theorem C9_never_raises_witness :
    calculateSessionMetrics [] "s1" cfgA nowA = none
    ∧ calculateSessionMetrics [msgOld] "s1" cfgA nowA = none
    ∧ calculateSessionMetrics [msgA] "s1" cfgA 0 = none
    ∧ calculateBurnRate [msgA] endNowA tokenValue = 0
    ∧ calculateBurnRate [msgA] msgA.timestamp tokenValue = 0 :=
  ⟨C9_never_raises.1 "s1" cfgA nowA,
    C9_never_raises.2.1 [msgOld] "s1" cfgA nowA (by decide),
    C9_never_raises.2.2.1 [msgA] "s1" cfgA 0 (by with_unfolding_all rfl),
    C9_never_raises.2.2.2.1 [msgA] endNowA tokenValue (by decide),
    C9_never_raises.2.2.2.2 [msgA] msgA.timestamp tokenValue msgA [] (by decide)
      (le_of_eq (by with_unfolding_all rfl))⟩

/-- C10: in every returned metrics value the three model-tier buckets
partition the quota-relevant total exactly:
`opus + sonnet + haiku = totalTokens`. -/
theorem C10_model_breakdown_partition :
    ∀ (msgs : List ClaudeMessage) (sid : String) (cfg : PlanConfig) (now : Int)
      (m : SessionMetrics),
      calculateSessionMetrics msgs sid cfg now = some m →
      m.modelBreakdown.opus + m.modelBreakdown.sonnet + m.modelBreakdown.haiku
        = m.totalTokens := by
  intro msgs sid cfg now m h
  obtain ⟨w, hw, rfl⟩ := calculateSessionMetrics_some h
  exact foldl_aggStep_tierSum w.messages initAgg rfl

/-- C10 witness: the theorem applied to Scenario A. -/
theorem C10_model_breakdown_partition_witness :
    metricsA.modelBreakdown.opus + metricsA.modelBreakdown.sonnet
        + metricsA.modelBreakdown.haiku
      = metricsA.totalTokens :=
  C10_model_breakdown_partition [msgA] "s1" cfgA nowA metricsA (by with_unfolding_all rfl)

end ClaudeStatusbar
